import Mathlib

/-!
Verification of the `aws-resource-tagger` utility (`src/apply_tags.py`).

The Python program is shallowly embedded below.  Python strings are Lean
`String`s, but every string operation the program performs (`str.split`,
`str.strip`, `in`, f-string interpolation) is implemented here as an
executable function over `List Char`, so that every definition evaluates
inside the kernel.  Python dictionaries are association lists with
insert-or-overwrite semantics (`dictInsert`), which preserves both
insertion order and key uniqueness exactly as CPython's `dict` does.

External AWS calls (`boto3` clients) are modelled by explicit environment
records (`ServiceApiEnv`, `Env`) that give the outcome of each remote call:
a normal return, a `botocore` `ClientError` (caught by the program's
`except ClientError` clauses), or a generic exception (caught only by the
broad `except Exception` handlers).
-/

namespace ApplyTags

/-! ### Character-level string primitives (Python `str` operations) -/

/-- Python's `s.split(sep)` for a single-character separator:
splits on every occurrence, keeping empty segments; `"".split(c) = ['']`. -/
def splitChar (c : Char) : List Char → List (List Char)
  | [] => [[]]
  | a :: rest =>
    match splitChar c rest with
    | [] => [[a]]
    | grp :: grps => if a = c then [] :: grp :: grps else (a :: grp) :: grps

/-- Python's `s.split(sep, 1)` for a single-character separator, combined
with the `sep in s` test: `none` when the character does not occur,
otherwise the part before the first occurrence and everything after it. -/
def splitFirstAt (c : Char) : List Char → Option (List Char × List Char)
  | [] => none
  | a :: rest =>
    if a = c then some ([], rest)
    else
      match splitFirstAt c rest with
      | none => none
      | some (k, v) => some (a :: k, v)

/-- Python's `s.strip()`: drop whitespace from both ends. -/
def trimChars (cs : List Char) : List Char :=
  ((cs.dropWhile Char.isWhitespace).reverse.dropWhile Char.isWhitespace).reverse

/-- Python's `c in s` membership test for a single character. -/
def containsChar (c : Char) (cs : List Char) : Bool :=
  cs.any (fun a => a = c)

/-! ### Python `dict` as an ordered association list -/

/-- A Python `dict` with `String` keys: an association list in insertion
order with at most one entry per key. -/
abbrev Dict (α : Type) := List (String × α)

/-- The keys of a dictionary, in insertion order. -/
def dkeys {α : Type} (d : Dict α) : List String :=
  d.map Prod.fst

/-- Python `d.get(k)` / `d[k]`: value of the first entry with the key. -/
def dlookup {α : Type} : Dict α → String → Option α
  | [], _ => none
  | (k, v) :: rest, key => if k = key then some v else dlookup rest key

/-- Python `d[k] = v`: overwrite the entry in place if the key is present,
otherwise append a new entry at the end. -/
def dictInsert {α : Type} : Dict α → String → α → Dict α
  | [], k, v => [(k, v)]
  | (k', v') :: rest, k, v =>
    if k' = k then (k, v) :: rest else (k', v') :: dictInsert rest k v

/-- Python `d.update(e)`: insert every entry of `e` into `d`, in order. -/
def dictUpdate {α : Type} (d : Dict α) (e : Dict α) : Dict α :=
  e.foldl (fun acc p => dictInsert acc p.1 p.2) d

/-- Left-biased choice on `Option` (used to state override/merge facts). -/
def oor {α : Type} : Option α → Option α → Option α
  | some v, _ => some v
  | none, b => b

/-- One entry of a failure map: the `{'ErrorCode': ..., 'ErrorMessage': ...}`
record stored per failed ARN. -/
structure FailureRecord where
  errorCode : String
  errorMessage : String
deriving DecidableEq

/-! ### `parse_tags` (src/apply_tags.py lines 16-26) -/

/-- `parse_tags(tags_string)`: convert `"key1=value1,key2=value2"` to a
dict.  Empty input returns `{}`; each comma-separated pair is split on its
first `=` (pairs without `=` are skipped); key and value are stripped. -/
def parse_tags (tags_string : String) : Dict String :=
  if tags_string = "" then []
  else
    (splitChar ',' tags_string.data).foldl
      (fun tags pair =>
        match splitFirstAt '=' pair with
        | some (k, v) => dictInsert tags ⟨trimChars k⟩ ⟨trimChars v⟩
        | none => tags)
      []

/-! ### ARN segment extraction (src/apply_tags.py lines 33-51) -/

/-- `arn.split(':')` as a list of Lean strings. -/
def arnParts (arn : String) : List String :=
  (splitChar ':' arn.data).map (fun cs => (⟨cs⟩ : String))

/-- `get_service_from_arn(arn)`: `arn.split(':')[2]`, `None` on
`IndexError`. -/
def get_service_from_arn (arn : String) : Option String :=
  (arnParts arn).get? 2

/-- `get_resource_type_from_arn(arn)`: with `parts = arn.split(':')`, if
`len(parts) >= 6` return `parts[5].split('/')[0]` when `parts[5]`
contains a slash and `parts[5]` otherwise; else `None`. -/
def get_resource_type_from_arn (arn : String) : Option String :=
  let parts := arnParts arn
  if 6 ≤ parts.length then
    let resource_part := parts.getD 5 ""
    if containsChar '/' resource_part.data then
      some (⟨(splitChar '/' resource_part.data).headD []⟩ : String)
    else some resource_part
  else none

/-! ### Model of the remote AWS calls -/

/-- Outcome of one remote call that returns nothing useful: either a
normal return or a raised exception carrying a message. -/
inductive CallOutcome where
  | ok : CallOutcome
  | exn (msg : String) : CallOutcome
deriving DecidableEq

/-- Outcome of `get_bucket_tagging`: a normal return carrying the bucket's
`TagSet`, a `botocore` `ClientError` with an error code and message
(caught by the inner `except ClientError` clause), or any other exception
(caught only by the function's outer `except Exception`). -/
inductive ReadTagsOutcome where
  | ok (tagset : Dict String) : ReadTagsOutcome
  | clientErr (code msg : String) : ReadTagsOutcome
  | exn (msg : String) : ReadTagsOutcome
deriving DecidableEq

/-- The remote-call outcomes available to `tag_resource_with_service_api`
for one resource: the AppConfig tag call, the S3 read and write calls,
and the Route 53 Resolver tag call. -/
structure ServiceApiEnv where
  appconfigTagResource : CallOutcome
  s3GetBucketTagging : ReadTagsOutcome
  s3PutBucketTagging : CallOutcome
  route53resolverTagResource : CallOutcome
deriving DecidableEq

/-- Observable behaviour of one `tag_resource_with_service_api` call:
its boolean return value, the `TagSet` argument passed to
`put_bucket_tagging` when that call was issued, and whether the S3 path
logged the `logger.warning` for a failed (non-`NoSuchTagSet`) tag read. -/
structure TagApiResult where
  success : Bool
  s3PutArg : Option (Dict String)
  s3ReadWarning : Bool
deriving DecidableEq

/-- `tag_resource_with_service_api(arn, tags, service)`
(src/apply_tags.py lines 53-102).  The S3 branch reads the bucket's
existing tags (building a dict entry by entry as the Python loop does),
tolerates a `ClientError` on the read — `NoSuchTagSet` is logged as info,
any other code as a warning — and then writes `existing ∪ tags` back.
A non-`ClientError` exception anywhere is caught by the outer
`except Exception` and turns into `return False`.  Services outside the
three handled ones return `False` without any call. -/
def tag_resource_with_service_api (env : ServiceApiEnv) (tags : Dict String)
    (service : Option String) : TagApiResult :=
  if service = some "appconfig" then
    match env.appconfigTagResource with
    | .ok => ⟨true, none, false⟩
    | .exn _ => ⟨false, none, false⟩
  else if service = some "s3" then
    match env.s3GetBucketTagging with
    | .exn _ => ⟨false, none, false⟩
    | .ok tagset =>
      let existing_tags := tagset.foldl (fun d p => dictInsert d p.1 p.2) []
      let combined_tags := dictUpdate existing_tags tags
      match env.s3PutBucketTagging with
      | .ok => ⟨true, some combined_tags, false⟩
      | .exn _ => ⟨false, some combined_tags, false⟩
    | .clientErr code _ =>
      let combined_tags := dictUpdate [] tags
      match env.s3PutBucketTagging with
      | .ok => ⟨true, some combined_tags, !(code == "NoSuchTagSet")⟩
      | .exn _ => ⟨false, some combined_tags, !(code == "NoSuchTagSet")⟩
  else if service = some "route53resolver" then
    match env.route53resolverTagResource with
    | .ok => ⟨true, none, false⟩
    | .exn _ => ⟨false, none, false⟩
  else ⟨false, none, false⟩

/-- Outcome of one `tag_resources` bulk call: a normal response carrying
its `FailedResourcesMap`, or a raised `ClientError`. -/
inductive BulkOutcome where
  | ok (failedResourcesMap : Dict FailureRecord) : BulkOutcome
  | clientError (code msg : String) : BulkOutcome
deriving DecidableEq

/-- The full remote environment of one `apply_tags_to_resources` run:
per-ARN service-specific call outcomes, and the outcome of the `i`-th
bulk `tag_resources` call (0-based call order). -/
structure Env where
  svc : String → ServiceApiEnv
  bulk : Nat → BulkOutcome

/-! ### `apply_tags_to_resources` (src/apply_tags.py lines 104-244) -/

/-- The services *not* supported by the Resource Groups Tagging API
(src/apply_tags.py line 129). -/
def unsupported_services : List String :=
  ["s3", "appconfig", "route53resolver"]

/-- The dispatcher's test (lines 131-136): an ARN goes to the
service-specific path iff its service segment is in
`unsupported_services`; `None` (a too-short ARN) is never in the set. -/
def isServiceSpecific (arn : String) : Bool :=
  match get_service_from_arn arn with
  | some s => unsupported_services.contains s
  | none => false

/-- `service_specific_arns` (line 134): input order preserved. -/
def service_specific_arns (resource_arns : List String) : List String :=
  resource_arns.filter isServiceSpecific

/-- `resource_groups_arns` (line 136): input order preserved. -/
def resource_groups_arns (resource_arns : List String) : List String :=
  resource_arns.filter (fun a => !isServiceSpecific a)

/-- Python f-string rendering of an `Option String`
(`None` prints as `"None"`). -/
def pyStr : Option String → String
  | some s => s
  | none => "None"

/-- The boolean outcome of the service-specific call for one ARN
(line 153). -/
def dedSuccess (env : Env) (tags : Dict String) (arn : String) : Bool :=
  (tag_resource_with_service_api (env.svc arn) tags (get_service_from_arn arn)).success

/-- The record stored per failed service-specific ARN (lines 157-160). -/
def dedFailureRecord (arn : String) : FailureRecord :=
  ⟨"ServiceSpecificAPIError",
    "Error usando API específica de " ++ pyStr (get_service_from_arn arn)⟩

/-- The per-resource loop over `service_specific_arns`
(lines 149-161), threading `(total_success_count, total_failed)`. -/
def processSpecific (env : Env) (tags : Dict String) :
    List String → Int × Dict FailureRecord → Int × Dict FailureRecord
  | [], acc => acc
  | arn :: rest, acc =>
    if dedSuccess env tags arn then
      processSpecific env tags rest (acc.1 + 1, acc.2)
    else
      processSpecific env tags rest (acc.1, dictInsert acc.2 arn (dedFailureRecord arn))

/-- `BATCH_SIZE` (line 112). -/
def BATCH_SIZE : Nat := 20

/-- Fuel-driven chunking;
`fuel ≥ xs.length` makes the fuel irrelevant (proved below). -/
def chunksFrom {α : Type} (n : Nat) : Nat → List α → List (List α)
  | _, [] => []
  | 0, _ => []
  | fuel + 1, xs => xs.take n :: chunksFrom n fuel (xs.drop n)

/-- `[l[i:i + n] for i in range(0, len(l), n)]` (line 165): consecutive
chunks of at most `n` elements, preserving order. -/
def chunkList {α : Type} (n : Nat) (xs : List α) : List (List α) :=
  chunksFrom n xs.length xs

/-- The batches the run submits to the bulk API (line 165). -/
def batchesOf (resource_arns : List String) : List (List String) :=
  chunkList BATCH_SIZE (resource_groups_arns resource_arns)

/-- The per-batch loop over the Resource Groups Tagging API
(lines 171-209): accumulates `(total_success_count, total_failed)` and the
trace of `ResourceARNList` arguments of the issued `tag_resources` calls.
On a normal response the batch adds `len(batch) - len(FailedResourcesMap)`
successes and merges the failure map; on a `ClientError` every ARN of the
batch is marked failed with the exception's code and message. -/
def processBatches (bulk : Nat → BulkOutcome) :
    Nat → List (List String) → Int → Dict FailureRecord → List (List String) →
    Int × Dict FailureRecord × List (List String)
  | _, [], success, failed, calls => (success, failed, calls)
  | idx, b :: rest, success, failed, calls =>
    match bulk idx with
    | .ok fm =>
      processBatches bulk (idx + 1) rest
        (success + ((b.length : Int) - (fm.length : Int)))
        (dictUpdate failed fm) (calls ++ [b])
    | .clientError code msg =>
      processBatches bulk (idx + 1) rest success
        (b.foldl (fun f arn => dictInsert f arn ⟨code, msg⟩) failed) (calls ++ [b])

/-- Total success count contributed by the batch loop, by batch:
a normal response contributes `len(batch) - len(FailedResourcesMap)`,
a `ClientError` contributes nothing. -/
def bulkSuccessSum (bulk : Nat → BulkOutcome) : Nat → List (List String) → Int
  | _, [] => 0
  | idx, b :: rest =>
    (match bulk idx with
     | .ok fm => (b.length : Int) - (fm.length : Int)
     | .clientError _ _ => 0) + bulkSuccessSum bulk (idx + 1) rest

/-- The observable outcome of one `apply_tags_to_resources` run. -/
structure Report where
  totalSuccess : Int
  totalFailed : Dict FailureRecord
  bulkCalls : List (List String)
  result : Bool
deriving DecidableEq

/-- `apply_tags_to_resources(resource_arns, tags)` (lines 104-244):
dispatch, then the service-specific loop, then the batch loop, and
finally `return len(total_failed) == 0`. -/
def apply_tags_to_resources (env : Env) (resource_arns : List String)
    (tags : Dict String) : Report :=
  let acc1 := processSpecific env tags (service_specific_arns resource_arns) (0, [])
  let r := processBatches env.bulk 0 (batchesOf resource_arns) acc1.1 acc1.2 []
  { totalSuccess := r.1
    totalFailed := r.2.1
    bulkCalls := r.2.2
    result := r.2.1.isEmpty }

/-- The documented contract of one bulk `tag_resources` response: the
`FailedResourcesMap` is a dict (distinct keys) over ARNs of the submitted
batch.  A raised `ClientError` is unconstrained. -/
def BatchRespOK (o : BulkOutcome) (b : List String) : Prop :=
  match o with
  | .ok fm => (dkeys fm).Nodup ∧ ∀ k ∈ dkeys fm, k ∈ b
  | .clientError _ _ => True

instance (o : BulkOutcome) (b : List String) : Decidable (BatchRespOK o b) :=
  match o with
  | .ok fm =>
    inferInstanceAs (Decidable ((dkeys fm).Nodup ∧ ∀ k ∈ dkeys fm, k ∈ b))
  | .clientError _ _ => isTrue trivial

/-- The environment honours the bulk API's response contract on every
batch the run submits. -/
def WellFormedBulk (bulk : Nat → BulkOutcome) (batches : List (List String)) : Prop :=
  ∀ j, j < batches.length → BatchRespOK (bulk j) (batches.getD j [])

instance (bulk : Nat → BulkOutcome) (batches : List (List String)) :
    Decidable (WellFormedBulk bulk batches) :=
  inferInstanceAs (Decidable (∀ j, j < batches.length → BatchRespOK (bulk j) (batches.getD j [])))

/-! ### Substring occurrence (to state what a failure message carries) -/

/-- Whether `sub` occurs at the head of `s`. -/
def leadsWith : List Char → List Char → Bool
  | [], _ => true
  | _ :: _, [] => false
  | a :: as, b :: bs => a = b && leadsWith as bs

/-- Whether `sub` occurs anywhere inside `s`. -/
def occursIn (sub : List Char) : List Char → Bool
  | [] => leadsWith sub []
  | b :: bs => leadsWith sub (b :: bs) || occursIn sub bs

/-- Whether the string `sub` occurs as a contiguous substring of `s`. -/
def strOccurs (sub s : String) : Bool :=
  occursIn sub.data s.data

/-! ### Dictionary lemmas -/

theorem oor_none_right {α : Type} (a : Option α) : oor a none = a := by
  cases a <;> rfl

theorem oor_assoc {α : Type} (a b c : Option α) :
    oor (oor a b) c = oor a (oor b c) := by
  cases a <;> rfl

theorem dlookup_dictInsert {α : Type} (d : Dict α) (k : String) (v : α) (key : String) :
    dlookup (dictInsert d k v) key = if k = key then some v else dlookup d key := by
  induction d with
  | nil => rfl
  | cons p rest ih =>
    obtain ⟨k', v'⟩ := p
    by_cases h1 : k' = k
    · subst h1
      simp only [dictInsert, if_pos rfl, dlookup]
      by_cases h2 : k' = key <;> simp [h2]
    · simp only [dictInsert, if_neg h1, dlookup]
      by_cases h2 : k' = key
      · subst h2
        have : ¬ k = k' := fun h => h1 h.symm
        simp [this]
      · simp [h2, ih]

theorem dkeys_nil {α : Type} : dkeys ([] : Dict α) = [] := rfl

theorem dkeys_cons {α : Type} (p : String × α) (d : Dict α) :
    dkeys (p :: d) = p.1 :: dkeys d := rfl

theorem mem_dkeys_dictInsert {α : Type} (d : Dict α) (k : String) (v : α) (key : String) :
    key ∈ dkeys (dictInsert d k v) ↔ key ∈ dkeys d ∨ key = k := by
  induction d with
  | nil => simp [dictInsert, dkeys_cons, dkeys_nil]
  | cons p rest ih =>
    obtain ⟨k', v'⟩ := p
    simp only [dictInsert]
    split_ifs with h1
    · subst h1
      simp only [dkeys_cons, List.mem_cons]
      tauto
    · simp only [dkeys_cons, List.mem_cons] at ih ⊢
      rw [ih]
      tauto

theorem length_dictInsert_not_mem {α : Type} (d : Dict α) (k : String) (v : α)
    (h : k ∉ dkeys d) : (dictInsert d k v).length = d.length + 1 := by
  induction d with
  | nil => rfl
  | cons p rest ih =>
    obtain ⟨k', v'⟩ := p
    simp only [dkeys_cons, List.mem_cons] at h
    push_neg at h
    have h1 : k' ≠ k := fun he => h.1 he.symm
    simp only [dictInsert, if_neg h1, List.length_cons]
    rw [ih h.2]

theorem dlookup_eq_none_of_not_mem {α : Type} (d : Dict α) (key : String)
    (h : key ∉ dkeys d) : dlookup d key = none := by
  induction d with
  | nil => rfl
  | cons p rest ih =>
    obtain ⟨k', v'⟩ := p
    simp only [dkeys_cons, List.mem_cons] at h
    push_neg at h
    have h1 : k' ≠ key := fun he => h.1 he.symm
    simp only [dlookup, if_neg h1]
    exact ih h.2

theorem dlookup_append {α : Type} (d₁ d₂ : Dict α) (key : String) :
    dlookup (d₁ ++ d₂) key = oor (dlookup d₁ key) (dlookup d₂ key) := by
  induction d₁ with
  | nil => rfl
  | cons p rest ih =>
    obtain ⟨k', v'⟩ := p
    by_cases h : k' = key
    · simp [dlookup, h, oor]
    · simp [dlookup, h, ih]

theorem dlookup_dictUpdate {α : Type} (e d : Dict α) (key : String) :
    dlookup (dictUpdate d e) key = oor (dlookup e.reverse key) (dlookup d key) := by
  induction e generalizing d with
  | nil => rfl
  | cons p rest ih =>
    obtain ⟨k, v⟩ := p
    simp only [dictUpdate, List.foldl_cons, List.reverse_cons] at *
    rw [ih (dictInsert d k v), dlookup_append, oor_assoc]
    congr 1
    rw [dlookup_dictInsert]
    by_cases h : k = key
    · simp [dlookup, oor, h]
    · simp [dlookup, oor, h]

theorem dkeys_reverse {α : Type} (d : Dict α) : dkeys d.reverse = (dkeys d).reverse := by
  simp [dkeys, List.map_reverse]

theorem dlookup_reverse_of_nodup {α : Type} (e : Dict α) (key : String)
    (h : (dkeys e).Nodup) : dlookup e.reverse key = dlookup e key := by
  induction e with
  | nil => rfl
  | cons p rest ih =>
    obtain ⟨k, v⟩ := p
    simp only [dkeys_cons, List.nodup_cons] at h
    simp only [List.reverse_cons, dlookup_append]
    by_cases hk : k = key
    · have hnone : dlookup rest.reverse key = none := by
        apply dlookup_eq_none_of_not_mem
        rw [dkeys_reverse, List.mem_reverse]
        intro hm
        apply h.1
        rw [hk]
        exact hm
      simp [hnone, oor, dlookup, hk]
    · rw [ih h.2]
      simp only [dlookup, if_neg hk]
      rw [oor_none_right]

theorem mem_dkeys_dictUpdate {α : Type} (e d : Dict α) (key : String) :
    key ∈ dkeys (dictUpdate d e) ↔ key ∈ dkeys d ∨ key ∈ dkeys e := by
  induction e generalizing d with
  | nil => simp [dictUpdate, dkeys_nil]
  | cons p rest ih =>
    obtain ⟨k, v⟩ := p
    simp only [dictUpdate, List.foldl_cons] at *
    rw [ih (dictInsert d k v), mem_dkeys_dictInsert]
    simp only [dkeys_cons, List.mem_cons]
    tauto

theorem length_dictUpdate_disjoint {α : Type} (e d : Dict α)
    (h1 : (dkeys e).Nodup) (h2 : ∀ k ∈ dkeys e, k ∉ dkeys d) :
    (dictUpdate d e).length = d.length + e.length := by
  induction e generalizing d with
  | nil => rfl
  | cons p rest ih =>
    obtain ⟨k, v⟩ := p
    simp only [dkeys_cons, List.nodup_cons] at h1
    simp only [dkeys_cons, List.mem_cons] at h2
    simp only [dictUpdate, List.foldl_cons] at *
    have hdisj2 : ∀ k' ∈ dkeys rest, k' ∉ dkeys (dictInsert d k v) := by
      intro k' hk'
      rw [mem_dkeys_dictInsert]
      push_neg
      refine ⟨h2 k' (Or.inr hk'), ?_⟩
      intro he
      exact h1.1 (he ▸ hk')
    rw [ih (dictInsert d k v) h1.2 hdisj2,
      length_dictInsert_not_mem d k v (h2 k (Or.inl rfl))]
    simp only [List.length_cons]
    omega

/-! ### Lemmas about the constant-record bulk-failure fold -/

theorem dlookup_foldl_insert_const (r : FailureRecord) :
    ∀ (b : List String) (f : Dict FailureRecord) (key : String),
      dlookup (b.foldl (fun f arn => dictInsert f arn r) f) key =
        if key ∈ b then some r else dlookup f key
  | [], f, key => by simp
  | a :: rest, f, key => by
    simp only [List.foldl_cons]
    rw [dlookup_foldl_insert_const r rest (dictInsert f a r) key]
    by_cases h1 : key ∈ rest
    · simp [h1, List.mem_cons]
    · rw [dlookup_dictInsert]
      by_cases h2 : a = key
      · subst h2
        simp [h1]
      · have hne : key ≠ a := fun he => h2 he.symm
        simp [List.mem_cons, h1, h2, hne]

theorem mem_dkeys_foldl_insert_const (r : FailureRecord) :
    ∀ (b : List String) (f : Dict FailureRecord) (key : String),
      key ∈ dkeys (b.foldl (fun f arn => dictInsert f arn r) f) ↔
        key ∈ dkeys f ∨ key ∈ b
  | [], f, key => by simp
  | a :: rest, f, key => by
    simp only [List.foldl_cons]
    rw [mem_dkeys_foldl_insert_const r rest (dictInsert f a r) key,
      mem_dkeys_dictInsert]
    simp [List.mem_cons]
    tauto

theorem length_foldl_insert_const (r : FailureRecord) :
    ∀ (b : List String) (f : Dict FailureRecord),
      b.Nodup → (∀ a ∈ b, a ∉ dkeys f) →
      (b.foldl (fun f arn => dictInsert f arn r) f).length = f.length + b.length
  | [], f, _, _ => rfl
  | a :: rest, f, hnd, hdisj => by
    simp only [List.foldl_cons]
    simp only [List.nodup_cons] at hnd
    rw [length_foldl_insert_const r rest (dictInsert f a r) hnd.2]
    · rw [length_dictInsert_not_mem f a r (hdisj a (List.mem_cons_self a rest))]
      simp only [List.length_cons]
      omega
    · intro a' ha'
      rw [mem_dkeys_dictInsert]
      push_neg
      exact ⟨hdisj a' (List.mem_cons_of_mem a ha'), fun he => hnd.1 (he ▸ ha')⟩

/-! ### Chunking lemmas -/

theorem chunksFrom_fuel_irrel {α : Type} (n : Nat) (hn : n ≠ 0) :
    ∀ (fuel₁ : Nat) (xs : List α) (fuel₂ : Nat), xs.length ≤ fuel₁ → xs.length ≤ fuel₂ →
      chunksFrom n fuel₁ xs = chunksFrom n fuel₂ xs := by
  intro fuel₁
  induction fuel₁ with
  | zero =>
    intro xs fuel₂ h₁ _
    have hxs : xs = [] := List.eq_nil_of_length_eq_zero (Nat.le_zero.mp h₁)
    subst hxs
    simp [chunksFrom]
  | succ f ih =>
    intro xs fuel₂ h₁ h₂
    cases xs with
    | nil => simp [chunksFrom]
    | cons x l =>
      cases fuel₂ with
      | zero =>
        simp only [List.length_cons] at h₂
        omega
      | succ f₂ =>
        simp only [chunksFrom]
        congr 1
        apply ih
        · simp only [List.length_drop, List.length_cons] at *
          omega
        · simp only [List.length_drop, List.length_cons] at *
          omega

theorem chunkList_nil {α : Type} (n : Nat) : chunkList n ([] : List α) = [] := rfl

theorem chunkList_cons {α : Type} (n : Nat) (hn : n ≠ 0) (xs : List α) (hxs : xs ≠ []) :
    chunkList n xs = xs.take n :: chunkList n (xs.drop n) := by
  obtain ⟨x, l, rfl⟩ : ∃ y ys, xs = y :: ys := by
    cases xs with
    | nil => exact absurd rfl hxs
    | cons y ys => exact ⟨y, ys, rfl⟩
  show chunksFrom n (l.length + 1) (x :: l) = _
  simp only [chunksFrom]
  congr 1
  apply chunksFrom_fuel_irrel n hn
  · simp only [List.length_drop, List.length_cons]
    omega
  · exact Nat.le_refl _

theorem chunkList_flatten {α : Type} (n : Nat) (hn : n ≠ 0) :
    ∀ xs : List α, (chunkList n xs).flatten = xs
  | [] => rfl
  | x :: l => by
    rw [chunkList_cons n hn (x :: l) (List.cons_ne_nil x l)]
    simp only [List.flatten_cons]
    rw [chunkList_flatten n hn ((x :: l).drop n)]
    exact List.take_append_drop n (x :: l)
termination_by xs => xs.length
decreasing_by
  simp only [List.length_drop, List.length_cons]
  omega

theorem chunkList_size_le {α : Type} (n : Nat) (hn : n ≠ 0) :
    ∀ xs : List α, ∀ c ∈ chunkList n xs, c.length ≤ n
  | [] => by
    intro c hc
    simp [chunkList_nil] at hc
  | x :: l => by
    intro c hc
    rw [chunkList_cons n hn (x :: l) (List.cons_ne_nil x l)] at hc
    rcases List.mem_cons.mp hc with h | h
    · subst h
      simp [List.length_take]
    · exact chunkList_size_le n hn ((x :: l).drop n) c h
termination_by xs => xs.length
decreasing_by
  simp only [List.length_drop, List.length_cons]
  omega

theorem chunkList_20_45 {α : Type} (xs : List α) (h : xs.length = 45) :
    (chunkList 20 xs).map List.length = [20, 20, 5] := by
  have h0 : xs ≠ [] := by
    intro he
    rw [he] at h
    simp at h
  rw [chunkList_cons 20 (by omega) xs h0]
  have h1 : (xs.drop 20).length = 25 := by
    simp [List.length_drop, h]
  have h10 : xs.drop 20 ≠ [] := by
    intro he
    rw [he] at h1
    simp at h1
  rw [chunkList_cons 20 (by omega) _ h10]
  have h2 : ((xs.drop 20).drop 20).length = 5 := by
    simp [List.length_drop, h]
  have h20 : (xs.drop 20).drop 20 ≠ [] := by
    intro he
    rw [he] at h2
    simp at h2
  rw [chunkList_cons 20 (by omega) _ h20]
  have h3 : (((xs.drop 20).drop 20).drop 20).length = 0 := by
    simp [List.length_drop, h]
  rw [List.eq_nil_of_length_eq_zero h3, chunkList_nil]
  simp only [List.map_cons, List.map_nil, List.length_take, h, h1, h2]
  norm_num

/-! ### Dispatcher partition lemmas -/

theorem length_filter_partition (p : String → Bool) (l : List String) :
    (l.filter p).length + (l.filter (fun a => !p a)).length = l.length := by
  induction l with
  | nil => rfl
  | cons a rest ih =>
    by_cases h : p a <;> simp [List.filter_cons, h] <;> omega

theorem not_mem_specific_of_mem_groups (resource_arns : List String) (a : String)
    (h : a ∈ resource_groups_arns resource_arns) :
    a ∉ service_specific_arns resource_arns := by
  intro h2
  have hp : isServiceSpecific a = true := (List.mem_filter.mp h2).2
  have hnp := (List.mem_filter.mp h).2
  rw [hp] at hnp
  simp at hnp

/-! ### Invariants of the service-specific loop -/

theorem processSpecific_lookup (env : Env) (tags : Dict String) :
    ∀ (arns : List String) (acc : Int × Dict FailureRecord) (key : String),
      dlookup (processSpecific env tags arns acc).2 key =
        if key ∈ arns ∧ dedSuccess env tags key = false then some (dedFailureRecord key)
        else dlookup acc.2 key
  | [], acc, key => by simp [processSpecific]
  | arn :: rest, acc, key => by
    by_cases hs : dedSuccess env tags arn
    · simp only [processSpecific, if_pos hs]
      rw [processSpecific_lookup env tags rest (acc.1 + 1, acc.2) key]
      by_cases hk : key = arn
      · subst hk
        simp [hs]
      · simp [List.mem_cons, hk]
    · simp only [processSpecific, if_neg hs]
      rw [processSpecific_lookup env tags rest
        (acc.1, dictInsert acc.2 arn (dedFailureRecord arn)) key]
      by_cases hk : key = arn
      · subst hk
        rw [dlookup_dictInsert]
        simp only [if_pos rfl]
        have hf : dedSuccess env tags key = false := by
          revert hs
          cases dedSuccess env tags key <;> simp
        simp [List.mem_cons, hf]
      · rw [dlookup_dictInsert]
        have : ¬ arn = key := fun he => hk he.symm
        simp only [if_neg this]
        simp [List.mem_cons, hk]

theorem processSpecific_keys (env : Env) (tags : Dict String) :
    ∀ (arns : List String) (acc : Int × Dict FailureRecord) (key : String),
      key ∈ dkeys (processSpecific env tags arns acc).2 →
        key ∈ dkeys acc.2 ∨ key ∈ arns
  | [], acc, key => by
    intro h
    exact Or.inl h
  | arn :: rest, acc, key => by
    intro h
    by_cases hs : dedSuccess env tags arn
    · simp only [processSpecific, if_pos hs] at h
      rcases processSpecific_keys env tags rest (acc.1 + 1, acc.2) key h with h' | h'
      · exact Or.inl h'
      · exact Or.inr (List.mem_cons_of_mem arn h')
    · simp only [processSpecific, if_neg hs] at h
      rcases processSpecific_keys env tags rest
        (acc.1, dictInsert acc.2 arn (dedFailureRecord arn)) key h with h' | h'
      · rcases (mem_dkeys_dictInsert acc.2 arn (dedFailureRecord arn) key).mp h' with h'' | h''
        · exact Or.inl h''
        · exact Or.inr (h'' ▸ List.mem_cons_self arn rest)
      · exact Or.inr (List.mem_cons_of_mem arn h')

theorem processSpecific_count (env : Env) (tags : Dict String) :
    ∀ (arns : List String) (acc : Int × Dict FailureRecord),
      arns.Nodup → (∀ a ∈ arns, a ∉ dkeys acc.2) →
      (processSpecific env tags arns acc).1 +
          ((processSpecific env tags arns acc).2.length : Int) =
        acc.1 + (acc.2.length : Int) + (arns.length : Int)
  | [], acc, _, _ => by simp [processSpecific]
  | arn :: rest, acc, hnd, hdisj => by
    simp only [List.nodup_cons] at hnd
    by_cases hs : dedSuccess env tags arn
    · simp only [processSpecific, if_pos hs]
      rw [processSpecific_count env tags rest (acc.1 + 1, acc.2) hnd.2
        (fun a ha => hdisj a (List.mem_cons_of_mem arn ha))]
      simp only [List.length_cons]
      push_cast
      ring
    · simp only [processSpecific, if_neg hs]
      rw [processSpecific_count env tags rest
        (acc.1, dictInsert acc.2 arn (dedFailureRecord arn)) hnd.2 ?hdisj]
      case hdisj =>
        intro a ha
        rw [mem_dkeys_dictInsert]
        push_neg
        refine ⟨hdisj a (List.mem_cons_of_mem arn ha), ?_⟩
        intro he
        exact hnd.1 (he ▸ ha)
      rw [length_dictInsert_not_mem acc.2 arn (dedFailureRecord arn)
        (hdisj arn (List.mem_cons_self arn rest))]
      simp only [List.length_cons]
      push_cast
      ring

/-! ### Invariants of the batch loop -/

theorem processBatches_calls (bulk : Nat → BulkOutcome) :
    ∀ (batches : List (List String)) (idx : Nat) (s : Int) (f : Dict FailureRecord)
      (calls : List (List String)),
      (processBatches bulk idx batches s f calls).2.2 = calls ++ batches
  | [], _, _, _, _ => by simp [processBatches]
  | b :: rest, idx, s, f, calls => by
    simp only [processBatches]
    cases bulk idx with
    | ok fm =>
      rw [processBatches_calls bulk rest (idx + 1) _ _ _]
      simp
    | clientError code msg =>
      rw [processBatches_calls bulk rest (idx + 1) _ _ _]
      simp

theorem processBatches_success (bulk : Nat → BulkOutcome) :
    ∀ (batches : List (List String)) (idx : Nat) (s : Int) (f : Dict FailureRecord)
      (calls : List (List String)),
      (processBatches bulk idx batches s f calls).1 = s + bulkSuccessSum bulk idx batches
  | [], _, _, _, _ => by simp [processBatches, bulkSuccessSum]
  | b :: rest, idx, s, f, calls => by
    simp only [processBatches, bulkSuccessSum]
    cases bulk idx with
    | ok fm =>
      rw [processBatches_success bulk rest (idx + 1) _ _ _]
      ring
    | clientError code msg =>
      rw [processBatches_success bulk rest (idx + 1) _ _ _]
      ring

/-- Peeling one batch off a `WellFormedBulk`-style hypothesis. -/
theorem wf_tail (bulk : Nat → BulkOutcome) (b : List String) (rest : List (List String))
    (idx : Nat)
    (h : ∀ j, j < (b :: rest).length → BatchRespOK (bulk (idx + j)) ((b :: rest).getD j [])) :
    ∀ j, j < rest.length → BatchRespOK (bulk (idx + 1 + j)) (rest.getD j []) := by
  intro j hj
  have h2 := h (j + 1) (by simp only [List.length_cons]; omega)
  have e : idx + (j + 1) = idx + 1 + j := by omega
  rw [e] at h2
  simpa [List.getD_cons_succ] using h2

theorem processBatches_frame (bulk : Nat → BulkOutcome) :
    ∀ (batches : List (List String)) (idx : Nat) (s : Int) (f : Dict FailureRecord)
      (calls : List (List String)) (key : String),
      (∀ j, j < batches.length → BatchRespOK (bulk (idx + j)) (batches.getD j [])) →
      key ∉ batches.flatten →
      dlookup (processBatches bulk idx batches s f calls).2.1 key = dlookup f key
  | [], _, _, _, _, _, _, _ => by simp [processBatches]
  | b :: rest, idx, s, f, calls, key, hwf, hmem => by
    simp only [List.flatten_cons, List.mem_append] at hmem
    push_neg at hmem
    simp only [processBatches]
    cases hbo : bulk idx with
    | ok fm =>
      rw [processBatches_frame bulk rest (idx + 1) _ _ _ key
        (wf_tail bulk b rest idx hwf) hmem.2]
      have hwf0 := hwf 0 (by simp only [List.length_cons]; omega)
      rw [Nat.add_zero, List.getD_cons_zero, hbo] at hwf0
      have hwf0' : (dkeys fm).Nodup ∧ ∀ k ∈ dkeys fm, k ∈ b := hwf0
      rw [dlookup_dictUpdate]
      have hnone : dlookup fm.reverse key = none := by
        apply dlookup_eq_none_of_not_mem
        rw [dkeys_reverse, List.mem_reverse]
        intro hmemf
        exact hmem.1 (hwf0'.2 key hmemf)
      rw [hnone]
      rfl
    | clientError code msg =>
      rw [processBatches_frame bulk rest (idx + 1) _ _ _ key
        (wf_tail bulk b rest idx hwf) hmem.2]
      rw [dlookup_foldl_insert_const]
      simp [hmem.1]

theorem processBatches_point (bulk : Nat → BulkOutcome) :
    ∀ (batches : List (List String)) (idx : Nat) (s : Int) (f : Dict FailureRecord)
      (calls : List (List String)) (j : Nat) (key : String),
      (∀ j', j' < batches.length → BatchRespOK (bulk (idx + j')) (batches.getD j' [])) →
      batches.flatten.Nodup →
      (∀ a ∈ batches.flatten, a ∉ dkeys f) →
      j < batches.length → key ∈ batches.getD j [] →
      dlookup (processBatches bulk idx batches s f calls).2.1 key =
        (match bulk (idx + j) with
         | .ok fm => dlookup fm key
         | .clientError code msg => some ⟨code, msg⟩)
  | [], _, _, _, _, j, _, _, _, _, hj, _ => by simp at hj
  | b :: rest, idx, s, f, calls, j, key, hwf, hnd, hdisj, hj, hkey => by
    simp only [List.flatten_cons] at hnd hdisj
    obtain ⟨hb_nd, hrest_nd, hdis⟩ := List.nodup_append.mp hnd
    cases j with
    | zero =>
      rw [List.getD_cons_zero] at hkey
      have hkey_flat : key ∈ b ++ rest.flatten := List.mem_append_left _ hkey
      have hkey_rest : key ∉ rest.flatten := hdis hkey
      simp only [processBatches, Nat.add_zero]
      cases hbo : bulk idx with
      | ok fm =>
        rw [processBatches_frame bulk rest (idx + 1) _ _ _ key
          (wf_tail bulk b rest idx hwf) hkey_rest]
        have hwf0 := hwf 0 (by simp only [List.length_cons]; omega)
        rw [Nat.add_zero, List.getD_cons_zero, hbo] at hwf0
        have hwf0' : (dkeys fm).Nodup ∧ ∀ k ∈ dkeys fm, k ∈ b := hwf0
        rw [dlookup_dictUpdate, dlookup_reverse_of_nodup fm key hwf0'.1,
          dlookup_eq_none_of_not_mem f key (hdisj key hkey_flat), oor_none_right]
      | clientError code msg =>
        rw [processBatches_frame bulk rest (idx + 1) _ _ _ key
          (wf_tail bulk b rest idx hwf) hkey_rest]
        rw [dlookup_foldl_insert_const]
        simp [hkey]
    | succ j' =>
      rw [List.getD_cons_succ] at hkey
      have hlt : j' < rest.length := by
        simp only [List.length_cons] at hj
        omega
      have harith : idx + (j' + 1) = idx + 1 + j' := by omega
      simp only [processBatches]
      cases hbo : bulk idx with
      | ok fm =>
        have hwf0 := hwf 0 (by simp only [List.length_cons]; omega)
        rw [Nat.add_zero, List.getD_cons_zero, hbo] at hwf0
        have hwf0' : (dkeys fm).Nodup ∧ ∀ k ∈ dkeys fm, k ∈ b := hwf0
        rw [harith]
        apply processBatches_point bulk rest (idx + 1) _ _ _ j' key
          (wf_tail bulk b rest idx hwf) hrest_nd ?_ hlt hkey
        intro a ha
        rw [mem_dkeys_dictUpdate]
        push_neg
        refine ⟨hdisj a (List.mem_append_right _ ha), ?_⟩
        intro hafm
        exact hdis (hwf0'.2 a hafm) ha
      | clientError code msg =>
        rw [harith]
        apply processBatches_point bulk rest (idx + 1) _ _ _ j' key
          (wf_tail bulk b rest idx hwf) hrest_nd ?_ hlt hkey
        intro a ha
        rw [mem_dkeys_foldl_insert_const]
        push_neg
        refine ⟨hdisj a (List.mem_append_right _ ha), ?_⟩
        intro hab
        exact hdis hab ha

theorem processBatches_keys (bulk : Nat → BulkOutcome) :
    ∀ (batches : List (List String)) (idx : Nat) (s : Int) (f : Dict FailureRecord)
      (calls : List (List String)) (key : String),
      (∀ j, j < batches.length → BatchRespOK (bulk (idx + j)) (batches.getD j [])) →
      key ∈ dkeys (processBatches bulk idx batches s f calls).2.1 →
      key ∈ dkeys f ∨ key ∈ batches.flatten
  | [], _, _, _, _, _, _, h => Or.inl h
  | b :: rest, idx, s, f, calls, key, hwf, h => by
    simp only [List.flatten_cons, List.mem_append]
    simp only [processBatches] at h
    cases hbo : bulk idx with
    | ok fm =>
      rw [hbo] at h
      have hwf0 := hwf 0 (by simp only [List.length_cons]; omega)
      rw [Nat.add_zero, List.getD_cons_zero, hbo] at hwf0
      have hwf0' : (dkeys fm).Nodup ∧ ∀ k ∈ dkeys fm, k ∈ b := hwf0
      rcases processBatches_keys bulk rest (idx + 1) _ _ _ key
        (wf_tail bulk b rest idx hwf) h with h' | h'
      · rcases (mem_dkeys_dictUpdate fm f key).mp h' with h'' | h''
        · exact Or.inl h''
        · exact Or.inr (Or.inl (hwf0'.2 key h''))
      · exact Or.inr (Or.inr h')
    | clientError code msg =>
      rw [hbo] at h
      rcases processBatches_keys bulk rest (idx + 1) _ _ _ key
        (wf_tail bulk b rest idx hwf) h with h' | h'
      · rcases (mem_dkeys_foldl_insert_const ⟨code, msg⟩ b f key).mp h' with h'' | h''
        · exact Or.inl h''
        · exact Or.inr (Or.inl h'')
      · exact Or.inr (Or.inr h')

theorem processBatches_count (bulk : Nat → BulkOutcome) :
    ∀ (batches : List (List String)) (idx : Nat) (s : Int) (f : Dict FailureRecord)
      (calls : List (List String)),
      (∀ j, j < batches.length → BatchRespOK (bulk (idx + j)) (batches.getD j [])) →
      batches.flatten.Nodup →
      (∀ a ∈ batches.flatten, a ∉ dkeys f) →
      (processBatches bulk idx batches s f calls).1 +
          ((processBatches bulk idx batches s f calls).2.1.length : Int) =
        s + (f.length : Int) + (batches.flatten.length : Int)
  | [], _, _, _, _, _, _, _ => by simp [processBatches]
  | b :: rest, idx, s, f, calls, hwf, hnd, hdisj => by
    simp only [List.flatten_cons] at hnd hdisj ⊢
    obtain ⟨hb_nd, hrest_nd, hdis⟩ := List.nodup_append.mp hnd
    simp only [processBatches]
    cases hbo : bulk idx with
    | ok fm =>
      have hwf0 := hwf 0 (by simp only [List.length_cons]; omega)
      rw [Nat.add_zero, List.getD_cons_zero, hbo] at hwf0
      have hwf0' : (dkeys fm).Nodup ∧ ∀ k ∈ dkeys fm, k ∈ b := hwf0
      have hfm_f : ∀ k ∈ dkeys fm, k ∉ dkeys f := by
        intro k hk
        exact hdisj k (List.mem_append_left _ (hwf0'.2 k hk))
      have hdisj' : ∀ a ∈ rest.flatten, a ∉ dkeys (dictUpdate f fm) := by
        intro a ha
        rw [mem_dkeys_dictUpdate]
        push_neg
        refine ⟨hdisj a (List.mem_append_right _ ha), ?_⟩
        intro hafm
        exact hdis (hwf0'.2 a hafm) ha
      rw [processBatches_count bulk rest (idx + 1) _ _ _
        (wf_tail bulk b rest idx hwf) hrest_nd hdisj']
      rw [length_dictUpdate_disjoint fm f hwf0'.1 hfm_f]
      simp only [List.length_append]
      push_cast
      ring
    | clientError code msg =>
      have hdisj' : ∀ a ∈ rest.flatten,
          a ∉ dkeys (b.foldl (fun f arn => dictInsert f arn ⟨code, msg⟩) f) := by
        intro a ha
        rw [mem_dkeys_foldl_insert_const]
        push_neg
        refine ⟨hdisj a (List.mem_append_right _ ha), ?_⟩
        intro hab
        exact hdis hab ha
      rw [processBatches_count bulk rest (idx + 1) _ _ _
        (wf_tail bulk b rest idx hwf) hrest_nd hdisj']
      rw [length_foldl_insert_const ⟨code, msg⟩ b f hb_nd
        (fun a ha => hdisj a (List.mem_append_left _ ha))]
      simp only [List.length_append]
      push_cast
      ring

/-! ### Assembly helpers -/

theorem dlookup_dictUpdate_nodup {α : Type} (d e : Dict α) (key : String)
    (h : (dkeys e).Nodup) :
    dlookup (dictUpdate d e) key = oor (dlookup e key) (dlookup d key) := by
  rw [dlookup_dictUpdate, dlookup_reverse_of_nodup e key h]

theorem get?_eq_some_getD {α : Type} (l : List α) (n : Nat) (d : α) (h : n < l.length) :
    l.get? n = some (l.getD n d) := by
  rw [List.getD_eq_getElem l d h, List.get?_eq_getElem?]
  exact List.getElem?_eq_getElem h

theorem wf_zero (bulk : Nat → BulkOutcome) (batches : List (List String))
    (hwf : WellFormedBulk bulk batches) :
    ∀ j, j < batches.length → BatchRespOK (bulk (0 + j)) (batches.getD j []) := by
  intro j hj
  rw [Nat.zero_add]
  exact hwf j hj

theorem apply_totalFailed (env : Env) (resource_arns : List String) (tags : Dict String) :
    (apply_tags_to_resources env resource_arns tags).totalFailed
      = (processBatches env.bulk 0 (batchesOf resource_arns)
          (processSpecific env tags (service_specific_arns resource_arns) (0, [])).1
          (processSpecific env tags (service_specific_arns resource_arns) (0, [])).2
          []).2.1 := rfl

theorem apply_totalSuccess (env : Env) (resource_arns : List String) (tags : Dict String) :
    (apply_tags_to_resources env resource_arns tags).totalSuccess
      = (processBatches env.bulk 0 (batchesOf resource_arns)
          (processSpecific env tags (service_specific_arns resource_arns) (0, [])).1
          (processSpecific env tags (service_specific_arns resource_arns) (0, [])).2
          []).1 := rfl

theorem apply_bulkCalls (env : Env) (resource_arns : List String) (tags : Dict String) :
    (apply_tags_to_resources env resource_arns tags).bulkCalls
      = (processBatches env.bulk 0 (batchesOf resource_arns)
          (processSpecific env tags (service_specific_arns resource_arns) (0, [])).1
          (processSpecific env tags (service_specific_arns resource_arns) (0, [])).2
          []).2.2 := rfl

theorem batchesOf_flatten (resource_arns : List String) :
    (batchesOf resource_arns).flatten = resource_groups_arns resource_arns :=
  chunkList_flatten BATCH_SIZE (by decide) (resource_groups_arns resource_arns)

/-- Keys accumulated by the service-specific loop never collide with the
bulk-eligible identifiers. -/
theorem specific_keys_disjoint_groups (env : Env) (resource_arns : List String)
    (tags : Dict String) :
    ∀ a ∈ (batchesOf resource_arns).flatten,
      a ∉ dkeys (processSpecific env tags (service_specific_arns resource_arns) (0, [])).2 := by
  intro a ha hk
  rw [batchesOf_flatten] at ha
  rcases processSpecific_keys env tags (service_specific_arns resource_arns) (0, []) a hk
    with h | h
  · simp [dkeys_nil] at h
  · exact not_mem_specific_of_mem_groups resource_arns a ha h

/-! ### The spec-side tag-pair extraction pipeline -/

/-- The pair-extraction pipeline exactly as §4.2 of the spec describes it:
split the input on commas, split each pair on its first `=` (dropping
pairs without `=`), and trim key and value. -/
def kvPairs (s : String) : List (String × String) :=
  (splitChar ',' s.data).filterMap
    (fun pair =>
      match splitFirstAt '=' pair with
      | some (k, v) => some ((⟨trimChars k⟩ : String), (⟨trimChars v⟩ : String))
      | none => none)

theorem parse_fold_bridge :
    ∀ (parts : List (List Char)) (d : Dict String),
      parts.foldl
        (fun tags pair =>
          match splitFirstAt '=' pair with
          | some (k, v) => dictInsert tags ⟨trimChars k⟩ ⟨trimChars v⟩
          | none => tags) d
      = (parts.filterMap
          (fun pair =>
            match splitFirstAt '=' pair with
            | some (k, v) => some ((⟨trimChars k⟩ : String), (⟨trimChars v⟩ : String))
            | none => none)).foldl (fun acc p => dictInsert acc p.1 p.2) d
  | [], _ => rfl
  | pair :: rest, d => by
    cases h : splitFirstAt '=' pair with
    | none =>
      simp only [List.foldl_cons, List.filterMap_cons, h]
      exact parse_fold_bridge rest d
    | some kv =>
      obtain ⟨k, v⟩ := kv
      simp only [List.foldl_cons, List.filterMap_cons, h]
      exact parse_fold_bridge rest _

/-- `parse_tags` is the fold of dict inserts over the spec's extraction
pipeline. -/
theorem parse_tags_eq_fold (s : String) :
    parse_tags s = (kvPairs s).foldl (fun acc p => dictInsert acc p.1 p.2) [] := by
  by_cases h : s = ""
  · subst h
    decide
  · simp only [parse_tags, if_neg h, kvPairs]
    exact parse_fold_bridge _ []

/-! ### Claim theorems -/

/-- Claim C7: for every run, the overall boolean outcome is success if and
only if the aggregated failure map is empty; a single failed resource
forces overall failure no matter how many others succeeded. -/
theorem C7_result_iff_empty_failures (env : Env) (resource_arns : List String)
    (tags : Dict String) :
    (apply_tags_to_resources env resource_arns tags).result = true
      ↔ (apply_tags_to_resources env resource_arns tags).totalFailed = [] := by
  have h : (apply_tags_to_resources env resource_arns tags).result
      = (apply_tags_to_resources env resource_arns tags).totalFailed.isEmpty := rfl
  rw [h]
  generalize (apply_tags_to_resources env resource_arns tags).totalFailed = l
  cases l <;> simp

/-- Claim C8: the tag parser splits on commas, splits each pair on its
first `=`, silently drops pairs without `=`, trims surrounding whitespace
from keys and values (captured by the `kvPairs` pipeline written from the
spec's words), yields an empty mapping on empty input, and parses
`"a=1,b=2,bad,c= 3 "` to `{a:1, b:2, c:3}`. -/
theorem C8_parse_tags_spec :
    (∀ s : String,
        parse_tags s = (kvPairs s).foldl (fun acc p => dictInsert acc p.1 p.2) [])
      ∧ parse_tags "" = []
      ∧ parse_tags "a=1,b=2,bad,c= 3 " = [("a", "1"), ("b", "2"), ("c", "3")] :=
  ⟨parse_tags_eq_fold, by decide, by decide⟩

/-- Claim C10: when several comma-separated pairs share the same key
(after trimming), the parsed mapping holds the value of the last such
pair: looking a key up in `parse_tags s` is looking it up in the reversed
extracted pair list. -/
theorem C10_parse_tags_last_wins :
    (∀ (s key : String),
        dlookup (parse_tags s) key = dlookup (kvPairs s).reverse key)
      ∧ parse_tags "a=1,a=2" = [("a", "2")] := by
  refine ⟨?_, by decide⟩
  intro s key
  rw [parse_tags_eq_fold]
  show dlookup (dictUpdate [] (kvPairs s)) key = _
  rw [dlookup_dictUpdate]
  have h : dlookup ([] : Dict String) key = none := rfl
  rw [h, oor_none_right]

/-- Claim C9: `service(id)` is the 3rd colon-delimited segment (absent when
fewer than 3 segments exist), and `resourceType(id)` is the first
slash-segment of the 6th colon-delimited segment when that segment has a
slash, else the whole 6th segment, absent when fewer than 6 segments
exist; checked on the spec's concrete examples. -/
theorem C9_arn_segments :
    (∀ arn : String, (arnParts arn).length < 3 → get_service_from_arn arn = none)
      ∧ (∀ arn : String, 3 ≤ (arnParts arn).length →
          get_service_from_arn arn = some ((arnParts arn).getD 2 ""))
      ∧ (∀ arn : String, (arnParts arn).length < 6 → get_resource_type_from_arn arn = none)
      ∧ (∀ arn : String, 6 ≤ (arnParts arn).length →
          get_resource_type_from_arn arn =
            if containsChar '/' ((arnParts arn).getD 5 "").data then
              some (⟨(splitChar '/' ((arnParts arn).getD 5 "").data).headD []⟩ : String)
            else some ((arnParts arn).getD 5 ""))
      ∧ get_service_from_arn "arn:aws:s3:::my-bucket" = some "s3"
      ∧ get_service_from_arn "arn:aws:ec2:us-east-1:123:instance/i-1" = some "ec2"
      ∧ get_service_from_arn "ab" = none
      ∧ get_resource_type_from_arn "arn:aws:ec2:us-east-1:123456789012:instance/i-0abc"
          = some "instance"
      ∧ get_resource_type_from_arn "arn:aws" = none := by
  refine ⟨?_, ?_, ?_, ?_, by decide, by decide, by decide, by decide, by decide⟩
  · intro arn h
    exact List.get?_eq_none.mpr (by omega)
  · intro arn h
    exact get?_eq_some_getD (arnParts arn) 2 "" (by omega)
  · intro arn h
    simp only [get_resource_type_from_arn]
    rw [if_neg (by omega)]
  · intro arn h
    simp only [get_resource_type_from_arn]
    rw [if_pos h]

/-- Claim C9 witness: the general segment characterisations applied at a
concrete ARN. -/
theorem C9_arn_segments_witness :
    (3 ≤ (arnParts "arn:aws:s3:::my-bucket").length)
      ∧ get_service_from_arn "arn:aws:s3:::my-bucket"
          = some ((arnParts "arn:aws:s3:::my-bucket").getD 2 "") :=
  ⟨by decide, C9_arn_segments.2.1 "arn:aws:s3:::my-bucket" (by decide)⟩

/-- Claim C2: the batch engine partitions the bulk-eligible identifiers
into consecutive chunks of at most 20 in input order, issues exactly one
bulk call per chunk (the call trace *is* the chunk list), and 45
bulk-eligible identifiers produce exactly the call sizes 20, 20, 5. -/
theorem C2_batch_partition (env : Env) (resource_arns : List String) (tags : Dict String) :
    (apply_tags_to_resources env resource_arns tags).bulkCalls
        = batchesOf resource_arns
      ∧ (apply_tags_to_resources env resource_arns tags).bulkCalls.flatten
          = resource_groups_arns resource_arns
      ∧ (∀ c ∈ (apply_tags_to_resources env resource_arns tags).bulkCalls, c.length ≤ 20)
      ∧ ((resource_groups_arns resource_arns).length = 45 →
          (apply_tags_to_resources env resource_arns tags).bulkCalls.map List.length
            = [20, 20, 5]) := by
  have hcalls : (apply_tags_to_resources env resource_arns tags).bulkCalls
      = batchesOf resource_arns := by
    rw [apply_bulkCalls, processBatches_calls]
    simp
  refine ⟨hcalls, ?_, ?_, ?_⟩
  · rw [hcalls]
    exact batchesOf_flatten resource_arns
  · rw [hcalls]
    intro c hc
    exact chunkList_size_le BATCH_SIZE (by decide) _ c hc
  · intro h45
    rw [hcalls]
    exact chunkList_20_45 _ h45

/-- Claim C2 witness: 45 bulk-eligible identifiers, three calls of sizes
20, 20, 5. -/
theorem C2_batch_partition_witness :
    (resource_groups_arns (List.replicate 45 "arn:aws:ec2:us-east-1:123456789012:instance/i-0")).length = 45
      ∧ (apply_tags_to_resources
          { svc := fun _ => ⟨.ok, .ok [], .ok, .ok⟩, bulk := fun _ => .ok [] }
          (List.replicate 45 "arn:aws:ec2:us-east-1:123456789012:instance/i-0")
          []).bulkCalls.map List.length = [20, 20, 5] :=
  ⟨by decide,
    (C2_batch_partition
      { svc := fun _ => ⟨.ok, .ok [], .ok, .ok⟩, bulk := fun _ => .ok [] }
      (List.replicate 45 "arn:aws:ec2:us-east-1:123456789012:instance/i-0")
      []).2.2.2 (by decide)⟩

/-- Claim C5 counterexample: a read failure that is a *generic* exception
(not a `ClientError`) — e.g. a dropped connection — is caught only by the
outer `except Exception`, so the whole per-resource operation fails and no
write is attempted, contradicting "for every exception raised while
reading … the merge-and-write proceeds … never by itself makes the whole
tagging operation for that resource fail". -/
theorem C5_counterexample :
    (tag_resource_with_service_api ⟨.ok, .exn "connection reset", .ok, .ok⟩
        [("k", "v")] (some "s3")).success = false
      ∧ (tag_resource_with_service_api ⟨.ok, .exn "connection reset", .ok, .ok⟩
          [("k", "v")] (some "s3")).s3PutArg = none := by decide

/-- Claim C5 (amended): in the S3 dedicated path, every *service-classified*
read error (a `ClientError`) other than `NoSuchTagSet` is logged as a
warning, the existing tags are treated as empty, and the merge-and-write
proceeds — the operation succeeds exactly when the write call succeeds.
A non-`ClientError` read exception instead aborts the operation. -/
theorem C5_s3_read_clienterror_tolerated (env : ServiceApiEnv) (tags : Dict String)
    (code msg : String)
    (hread : env.s3GetBucketTagging = .clientErr code msg)
    (hcode : code ≠ "NoSuchTagSet") :
    (tag_resource_with_service_api env tags (some "s3")).s3ReadWarning = true
      ∧ (tag_resource_with_service_api env tags (some "s3")).s3PutArg
          = some (dictUpdate [] tags)
      ∧ ((tag_resource_with_service_api env tags (some "s3")).success = true
          ↔ env.s3PutBucketTagging = .ok) := by
  cases hput : env.s3PutBucketTagging with
  | ok =>
    simp [tag_resource_with_service_api, hread, hput, hcode]
  | exn m =>
    simp [tag_resource_with_service_api, hread, hput, hcode]

/-- Claim C5 witness: the amended theorem applied to an `AccessDenied`
read failure followed by a successful write. -/
theorem C5_s3_read_clienterror_witness :
    ((⟨.ok, .clientErr "AccessDenied" "denied", .ok, .ok⟩ : ServiceApiEnv).s3GetBucketTagging
        = .clientErr "AccessDenied" "denied"
      ∧ "AccessDenied" ≠ "NoSuchTagSet")
      ∧ (tag_resource_with_service_api ⟨.ok, .clientErr "AccessDenied" "denied", .ok, .ok⟩
          [("k", "v")] (some "s3")).s3ReadWarning = true :=
  ⟨⟨rfl, by decide⟩,
    (C5_s3_read_clienterror_tolerated ⟨.ok, .clientErr "AccessDenied" "denied", .ok, .ok⟩
      [("k", "v")] "AccessDenied" "denied" rfl (by decide)).1⟩

/-- Claim C6: the S3 path writes back the union of the previously existing
tags with the new tags, the new value winning on every key collision; in
particular `{env:prod}` merged with `{owner:team-a}` writes
`{env:prod, owner:team-a}`, and `{env:prod}` merged with `{env:staging}`
writes `{env:staging}`. -/
theorem C6_s3_merge_override :
    (∀ (env : ServiceApiEnv) (tags existingRaw : Dict String),
        env.s3GetBucketTagging = .ok existingRaw → (dkeys tags).Nodup →
        (tag_resource_with_service_api env tags (some "s3")).s3PutArg
            = some (dictUpdate (dictUpdate [] existingRaw) tags)
          ∧ ∀ key, dlookup (dictUpdate (dictUpdate [] existingRaw) tags) key
              = oor (dlookup tags key) (dlookup (dictUpdate [] existingRaw) key))
      ∧ (tag_resource_with_service_api ⟨.ok, .ok [("env", "prod")], .ok, .ok⟩
          [("owner", "team-a")] (some "s3")).s3PutArg
          = some [("env", "prod"), ("owner", "team-a")]
      ∧ (tag_resource_with_service_api ⟨.ok, .ok [("env", "prod")], .ok, .ok⟩
          [("env", "staging")] (some "s3")).s3PutArg
          = some [("env", "staging")] := by
  refine ⟨?_, by decide, by decide⟩
  intro env tags existingRaw hread hnd
  constructor
  · cases hput : env.s3PutBucketTagging with
    | ok => simp [tag_resource_with_service_api, hread, hput, dictUpdate]
    | exn m => simp [tag_resource_with_service_api, hread, hput, dictUpdate]
  · intro key
    exact dlookup_dictUpdate_nodup (dictUpdate [] existingRaw) tags key hnd

/-- Claim C6 witness: the general merge characterisation applied to the
spec's first example. -/
theorem C6_s3_merge_override_witness :
    ((⟨.ok, .ok [("env", "prod")], .ok, .ok⟩ : ServiceApiEnv).s3GetBucketTagging
        = .ok [("env", "prod")]
      ∧ (dkeys ([("owner", "team-a")] : Dict String)).Nodup)
      ∧ (tag_resource_with_service_api ⟨.ok, .ok [("env", "prod")], .ok, .ok⟩
          [("owner", "team-a")] (some "s3")).s3PutArg
        = some (dictUpdate (dictUpdate [] [("env", "prod")]) [("owner", "team-a")]) :=
  ⟨⟨rfl, by decide⟩,
    (C6_s3_merge_override.1 ⟨.ok, .ok [("env", "prod")], .ok, .ok⟩
      [("owner", "team-a")] [("env", "prod")] rfl (by decide)).1⟩

/-- An environment in which every service-specific remote call raises an
exception whose message is `"boom"`, and every bulk call succeeds with no
per-identifier failures. -/
def envBoom : Env :=
  { svc := fun _ => ⟨.exn "boom", .exn "boom", .exn "boom", .exn "boom"⟩
    bulk := fun _ => .ok [] }

/-- Claim C4 counterexample: a dedicated-path (AppConfig) call raises an
exception with message `"boom"`; the failure map records the generic code
`ServiceSpecificAPIError` together with the generic message
`"Error usando API específica de appconfig"`, which does not contain the
raised exception's message — the exception's message reaches only the log,
refuting "together with the raised exception's message". -/
theorem C4_counterexample :
    dlookup (apply_tags_to_resources envBoom
        ["arn:aws:appconfig:us-east-1:123456789012:application/a"] [("k", "v")]).totalFailed
        "arn:aws:appconfig:us-east-1:123456789012:application/a"
      = some ⟨"ServiceSpecificAPIError", "Error usando API específica de appconfig"⟩
      ∧ strOccurs "boom" "Error usando API específica de appconfig" = false := by decide

/-- Claim C4 (amended): for every resource routed to the dedicated adapter
whose call fails, the failure map records the generic error code
`ServiceSpecificAPIError` together with a generic message naming the
resource's service — not the raised exception's message, which is only
logged. -/
theorem C4_dedicated_failure_record (env : Env) (resource_arns : List String)
    (tags : Dict String) (arn : String)
    (hmem : arn ∈ resource_arns)
    (hspec : isServiceSpecific arn = true)
    (hfail : dedSuccess env tags arn = false)
    (hwf : WellFormedBulk env.bulk (batchesOf resource_arns)) :
    dlookup (apply_tags_to_resources env resource_arns tags).totalFailed arn
      = some ⟨"ServiceSpecificAPIError",
          "Error usando API específica de " ++ pyStr (get_service_from_arn arn)⟩ := by
  rw [apply_totalFailed]
  have hnotin : arn ∉ (batchesOf resource_arns).flatten := by
    rw [batchesOf_flatten]
    intro hin
    have := (List.mem_filter.mp hin).2
    rw [hspec] at this
    simp at this
  rw [processBatches_frame env.bulk (batchesOf resource_arns) 0 _ _ [] arn
    (wf_zero env.bulk (batchesOf resource_arns) hwf) hnotin]
  rw [processSpecific_lookup]
  have hmem' : arn ∈ service_specific_arns resource_arns :=
    List.mem_filter.mpr ⟨hmem, hspec⟩
  simp only [if_pos (And.intro hmem' hfail)]
  rfl

/-- Claim C4 witness: the amended record characterisation applied to a
failing AppConfig resource. -/
theorem C4_dedicated_failure_record_witness :
    ("arn:aws:appconfig:us-east-1:123456789012:application/a"
        ∈ ["arn:aws:appconfig:us-east-1:123456789012:application/a"]
      ∧ isServiceSpecific "arn:aws:appconfig:us-east-1:123456789012:application/a" = true
      ∧ dedSuccess envBoom [("k", "v")]
          "arn:aws:appconfig:us-east-1:123456789012:application/a" = false
      ∧ WellFormedBulk envBoom.bulk
          (batchesOf ["arn:aws:appconfig:us-east-1:123456789012:application/a"]))
      ∧ dlookup (apply_tags_to_resources envBoom
            ["arn:aws:appconfig:us-east-1:123456789012:application/a"]
            [("k", "v")]).totalFailed
          "arn:aws:appconfig:us-east-1:123456789012:application/a"
        = some ⟨"ServiceSpecificAPIError",
            "Error usando API específica de "
              ++ pyStr (get_service_from_arn
                  "arn:aws:appconfig:us-east-1:123456789012:application/a")⟩ :=
  ⟨⟨by decide, by decide, by decide, by decide⟩,
    C4_dedicated_failure_record envBoom
      ["arn:aws:appconfig:us-east-1:123456789012:application/a"] [("k", "v")]
      "arn:aws:appconfig:us-east-1:123456789012:application/a"
      (by decide) (by decide) (by decide) (by decide)⟩

/-- Claim C1 counterexample: with the same identifier listed twice (both
routed to the dedicated path, both failing), the failure map holds a
single entry, so total successes (0) plus failure-map entries (1) is not
the number of input identifiers (2) — the claim fails for inputs with
duplicates. -/
theorem C1_counterexample :
    ¬ ((apply_tags_to_resources envBoom ["arn:aws:s3:::b", "arn:aws:s3:::b"]
          [("k", "v")]).totalSuccess
        + (((apply_tags_to_resources envBoom ["arn:aws:s3:::b", "arn:aws:s3:::b"]
            [("k", "v")]).totalFailed.length : Int))
      = ((["arn:aws:s3:::b", "arn:aws:s3:::b"] : List String).length : Int)) := by decide

/-- Claim C1 (amended): for every *duplicate-free* input identifier list
(and bulk responses honouring the per-chunk failure-map contract), each
input identifier is accounted for exactly once: the total success count
plus the number of failure-map entries equals the number of input
identifiers, and every failure-map key is an input identifier. -/
theorem C1_accounting (env : Env) (resource_arns : List String) (tags : Dict String)
    (hnd : resource_arns.Nodup)
    (hwf : WellFormedBulk env.bulk (batchesOf resource_arns)) :
    (apply_tags_to_resources env resource_arns tags).totalSuccess
        + ((apply_tags_to_resources env resource_arns tags).totalFailed.length : Int)
      = (resource_arns.length : Int)
    ∧ ∀ key ∈ dkeys (apply_tags_to_resources env resource_arns tags).totalFailed,
        key ∈ resource_arns := by
  have hG_nd : (resource_groups_arns resource_arns).Nodup :=
    hnd.filter (fun a => !isServiceSpecific a)
  have hS_nd : (service_specific_arns resource_arns).Nodup :=
    hnd.filter isServiceSpecific
  have hflat_nd : (batchesOf resource_arns).flatten.Nodup := by
    rw [batchesOf_flatten]
    exact hG_nd
  have hdisj := specific_keys_disjoint_groups env resource_arns tags
  have hcount1 := processSpecific_count env tags (service_specific_arns resource_arns)
    (0, []) hS_nd (by intro a _; simp [dkeys_nil])
  have hcount2 := processBatches_count env.bulk (batchesOf resource_arns) 0
    (processSpecific env tags (service_specific_arns resource_arns) (0, [])).1
    (processSpecific env tags (service_specific_arns resource_arns) (0, [])).2 []
    (wf_zero env.bulk (batchesOf resource_arns) hwf) hflat_nd hdisj
  constructor
  · rw [apply_totalSuccess, apply_totalFailed, hcount2]
    have hlen : ((batchesOf resource_arns).flatten.length : Int)
        = ((resource_groups_arns resource_arns).length : Int) := by
      rw [batchesOf_flatten]
    rw [hlen]
    have hpart := length_filter_partition isServiceSpecific resource_arns
    simp only [List.length_nil, Nat.cast_zero] at hcount1
    have : (processSpecific env tags (service_specific_arns resource_arns) (0, [])).1
        + ((processSpecific env tags (service_specific_arns resource_arns) (0, [])).2.length : Int)
        = ((service_specific_arns resource_arns).length : Int) := by
      rw [hcount1]
      ring
    rw [this]
    unfold service_specific_arns resource_groups_arns at *
    omega
  · intro key hkey
    rw [apply_totalFailed] at hkey
    rcases processBatches_keys env.bulk (batchesOf resource_arns) 0 _ _ [] key
      (wf_zero env.bulk (batchesOf resource_arns) hwf) hkey with h | h
    · rcases processSpecific_keys env tags (service_specific_arns resource_arns)
        (0, []) key h with h' | h'
      · simp [dkeys_nil] at h'
      · exact List.mem_of_mem_filter h'
    · rw [batchesOf_flatten] at h
      exact List.mem_of_mem_filter h

/-- Claim C1 witness: the amended accounting applied to a two-identifier
run, one identifier per dispatch path. -/
theorem C1_accounting_witness :
    ((["arn:aws:ec2:us-east-1:123456789012:instance/i-1", "arn:aws:s3:::bucket-a"] :
          List String).Nodup
      ∧ WellFormedBulk
          ({ svc := fun _ => ⟨.ok, .ok [], .ok, .ok⟩, bulk := fun _ => .ok [] } : Env).bulk
          (batchesOf ["arn:aws:ec2:us-east-1:123456789012:instance/i-1", "arn:aws:s3:::bucket-a"]))
      ∧ (apply_tags_to_resources
            { svc := fun _ => ⟨.ok, .ok [], .ok, .ok⟩, bulk := fun _ => .ok [] }
            ["arn:aws:ec2:us-east-1:123456789012:instance/i-1", "arn:aws:s3:::bucket-a"]
            []).totalSuccess
          + (((apply_tags_to_resources
              { svc := fun _ => ⟨.ok, .ok [], .ok, .ok⟩, bulk := fun _ => .ok [] }
              ["arn:aws:ec2:us-east-1:123456789012:instance/i-1", "arn:aws:s3:::bucket-a"]
              []).totalFailed.length : Int))
        = ((["arn:aws:ec2:us-east-1:123456789012:instance/i-1", "arn:aws:s3:::bucket-a"] :
            List String).length : Int) :=
  ⟨⟨by decide, by decide⟩,
    (C1_accounting { svc := fun _ => ⟨.ok, .ok [], .ok, .ok⟩, bulk := fun _ => .ok [] }
      ["arn:aws:ec2:us-east-1:123456789012:instance/i-1", "arn:aws:s3:::bucket-a"]
      [] (by decide) (by decide)).1⟩

/-- An environment whose first bulk call raises `E1` and whose second
raises `E2`; dedicated calls all succeed. -/
def envTwoErr : Env :=
  { svc := fun _ => ⟨.ok, .ok [], .ok, .ok⟩
    bulk := fun i => if i = 0 then .clientError "E1" "m1" else .clientError "E2" "m2" }

/-- Twenty-one bulk-eligible identifiers whose first and last coincide, so
the duplicate lands both in chunk 0 (of 20) and in chunk 1 (of 1). -/
def arnsDup21 : List String :=
  (List.range 20).map (fun i => "arn:aws:ec2:r:a:i/" ++ toString i)
    ++ ["arn:aws:ec2:r:a:i/0"]

/-- Claim C3 counterexample: chunk 0's bulk call raises the exception
`E1`/`m1` and the identifier `arn:aws:ec2:r:a:i/0` belongs to chunk 0, yet
its failure-map record is not `⟨E1, m1⟩` — the duplicate occurrence in the
later chunk 1 (which raises `E2`/`m2`) overwrote it, refuting "every
identifier of that chunk is recorded in the failure map with that
exception's error code and message". -/
theorem C3_counterexample :
    envTwoErr.bulk 0 = .clientError "E1" "m1"
      ∧ "arn:aws:ec2:r:a:i/0" ∈ (batchesOf arnsDup21).getD 0 []
      ∧ dlookup (apply_tags_to_resources envTwoErr arnsDup21 []).totalFailed
          "arn:aws:ec2:r:a:i/0"
        ≠ some ⟨"E1", "m1"⟩ := by decide

/-- Claim C3 (amended): provided the bulk-eligible identifiers are pairwise
distinct (and bulk responses honour the per-chunk failure-map contract),
the failure-map record of every identifier is determined by its own
chunk's outcome alone — in a chunk whose call raised a `ClientError`,
every identifier is recorded with that exception's code and message, and
identifiers of other chunks see only their own chunk's response; moreover
the total success count decomposes as the dedicated-path successes plus
the per-chunk success sum, in which a raising chunk contributes zero. -/
theorem C3_chunk_exception_isolation (env : Env) (resource_arns : List String)
    (tags : Dict String)
    (hnd : (resource_groups_arns resource_arns).Nodup)
    (hwf : WellFormedBulk env.bulk (batchesOf resource_arns)) :
    (∀ j, j < (batchesOf resource_arns).length →
        ∀ arn ∈ (batchesOf resource_arns).getD j [],
          dlookup (apply_tags_to_resources env resource_arns tags).totalFailed arn
            = (match env.bulk j with
               | .ok fm => dlookup fm arn
               | .clientError code msg => some ⟨code, msg⟩))
      ∧ (apply_tags_to_resources env resource_arns tags).totalSuccess
          = (processSpecific env tags (service_specific_arns resource_arns) (0, [])).1
              + bulkSuccessSum env.bulk 0 (batchesOf resource_arns) := by
  have hflat_nd : (batchesOf resource_arns).flatten.Nodup := by
    rw [batchesOf_flatten]
    exact hnd
  constructor
  · intro j hj arn hmem
    rw [apply_totalFailed]
    have h := processBatches_point env.bulk (batchesOf resource_arns) 0
      (processSpecific env tags (service_specific_arns resource_arns) (0, [])).1
      (processSpecific env tags (service_specific_arns resource_arns) (0, [])).2 []
      j arn (wf_zero env.bulk (batchesOf resource_arns) hwf) hflat_nd
      (specific_keys_disjoint_groups env resource_arns tags) hj hmem
    rw [Nat.zero_add] at h
    exact h
  · rw [apply_totalSuccess, processBatches_success]

/-- Claim C3 witness: a two-identifier single chunk whose bulk call raises
a throttling exception; both identifiers are recorded with its code and
message. -/
theorem C3_chunk_exception_isolation_witness :
    ((resource_groups_arns
          ["arn:aws:ec2:us-east-1:123456789012:instance/i-1",
            "arn:aws:ec2:us-east-1:123456789012:instance/i-2"]).Nodup
      ∧ WellFormedBulk
          ({ svc := fun _ => ⟨.ok, .ok [], .ok, .ok⟩
             bulk := fun _ => .clientError "ThrottlingException" "Rate exceeded" } : Env).bulk
          (batchesOf
            ["arn:aws:ec2:us-east-1:123456789012:instance/i-1",
              "arn:aws:ec2:us-east-1:123456789012:instance/i-2"]))
      ∧ dlookup (apply_tags_to_resources
            { svc := fun _ => ⟨.ok, .ok [], .ok, .ok⟩
              bulk := fun _ => .clientError "ThrottlingException" "Rate exceeded" }
            ["arn:aws:ec2:us-east-1:123456789012:instance/i-1",
              "arn:aws:ec2:us-east-1:123456789012:instance/i-2"]
            []).totalFailed "arn:aws:ec2:us-east-1:123456789012:instance/i-1"
        = some ⟨"ThrottlingException", "Rate exceeded"⟩ := by
  refine ⟨⟨by decide, by decide⟩, ?_⟩
  have h := (C3_chunk_exception_isolation
    { svc := fun _ => ⟨.ok, .ok [], .ok, .ok⟩
      bulk := fun _ => .clientError "ThrottlingException" "Rate exceeded" }
    ["arn:aws:ec2:us-east-1:123456789012:instance/i-1",
      "arn:aws:ec2:us-east-1:123456789012:instance/i-2"]
    [] (by decide) (by decide)).1 0 (by decide)
    "arn:aws:ec2:us-east-1:123456789012:instance/i-1" (by decide)
  exact h

end ApplyTags
